import Mathlib

/-!
Verification development for the knowledge-intelligence TF-IDF search and
analysis engine (knowledge-intelligence/src): a shallow embedding of the
text-processing utilities, the TF-IDF vectorizer, the semantic search layer,
the trend analyzer, the connection-discovery module and the QA intent
dispatcher, together with theorems checking the documented properties.

Modelling conventions:
- JavaScript numbers are modelled as exact rationals. The two transcendental
  primitives Math.log and Math.sqrt are taken as explicit function parameters
  (named jsLog and jsSqrt below); every theorem proved about code that uses
  them is proved for an arbitrary interpretation of these parameters, hence in
  particular for the real ones. Division of a zero numerator by a zero
  denominator (which yields NaN in JavaScript) is modelled by Option, with
  none standing for NaN; NaN comparisons are false, as in JavaScript.
- JavaScript objects used as string-keyed dictionaries are modelled as
  insertion-ordered association lists: updating an existing key keeps its
  position, a new key is appended (objSet below). JavaScript Set iteration
  order is first-insertion order (insertionDedup below).
- Missing optional string fields of articles are conflated with the empty
  string: the code only ever uses them through truthiness tests and
  defaulting, for which undefined and the empty string behave identically.
- Array.prototype.sort with a numeric comparator is a stable sort; a stable
  sort is uniquely determined by the comparator, so it is modelled by
  insertion sort (which Mathlib proves stable and sorted).
- String.prototype.toLowerCase is modelled by ASCII lowercasing; none of the
  tokenizer character classes is affected by non-ASCII case mapping for the
  inputs of interest (CJK characters are caseless).
-/

/-- TokType: the currentType state of the tokenizer state machine
(chinese, english or number in the source). -/
inductive TokType where
  | chinese
  | english
  | number
deriving DecidableEq, Repr

/-- objSet models assignment obj[k] = v on a JavaScript object used as a
dictionary: an existing key keeps its position with the new value, a fresh
key is appended at the end. -/
def objSet {β : Type} : List (String × β) → String → β → List (String × β)
  | [], k, v => [(k, v)]
  | (k', v') :: t, k, v => if k' = k then (k, v) :: t else (k', v') :: objSet t k v

/-- dedupKeepFirst seen l drops from l every element already in seen or seen
earlier in l, keeping first occurrences in order. -/
def dedupKeepFirst {α : Type} [DecidableEq α] (seen : List α) : List α → List α
  | [] => []
  | x :: xs => if x ∈ seen then dedupKeepFirst seen xs else x :: dedupKeepFirst (x :: seen) xs

/-- insertionDedup models building a JavaScript Set from a list and iterating
it: first occurrences survive, in order. -/
def insertionDedup {α : Type} [DecidableEq α] (l : List α) : List α :=
  dedupKeepFirst [] l

/-- startsWithList needle hay decides whether needle is an initial segment of
hay. -/
def startsWithList : List Char → List Char → Bool
  | [], _ => true
  | _ :: _, [] => false
  | a :: as, b :: bs => a == b && startsWithList as bs

/-- hasSubList needle hay decides whether needle occurs contiguously in hay. -/
def hasSubList (needle : List Char) : List Char → Bool
  | [] => needle.isEmpty
  | c :: cs => startsWithList needle (c :: cs) || hasSubList needle cs

/-- strContains hay needle models the JavaScript test hay.includes(needle). -/
def strContains (hay needle : String) : Bool :=
  hasSubList needle.data hay.data

/-- jsToLower models String.prototype.toLowerCase (ASCII range; see header). -/
def jsToLower (s : String) : String :=
  String.mk (s.data.map Char.toLower)

/-- sortByDescQ models arr.sort((a, b) => f(b) - f(a)): a stable descending
sort by the rational key f. -/
def sortByDescQ {α : Type} (f : α → ℚ) (l : List α) : List α :=
  @List.insertionSort α (fun a b => f b ≤ f a)
    (fun a b => inferInstanceAs (Decidable (f b ≤ f a))) l

/-- sortByAscInt models arr.sort((a, b) => f(a) - f(b)) on integer keys: a
stable ascending sort by the key f. -/
def sortByAscInt {α : Type} (f : α → ℤ) (l : List α) : List α :=
  @List.insertionSort α (fun a b => f a ≤ f b)
    (fun a b => inferInstanceAs (Decidable (f a ≤ f b))) l

/-! Text-processing utilities (knowledge-intelligence/src/utils/text.js). -/

/-- isChineseChar models the isChinese helper: the CJK unified ideographs
block, code points 0x4E00 to 0x9FFF. -/
def isChineseChar (c : Char) : Prop :=
  0x4E00 ≤ c.toNat ∧ c.toNat ≤ 0x9FFF

instance (c : Char) : Decidable (isChineseChar c) :=
  inferInstanceAs (Decidable (_ ∧ _))

/-- isAsciiLowerChar models the regular-expression class [a-z] applied to a
character of the lowercased input. -/
def isAsciiLowerChar (c : Char) : Prop :=
  'a' ≤ c ∧ c ≤ 'z'

instance (c : Char) : Decidable (isAsciiLowerChar c) :=
  inferInstanceAs (Decidable (_ ∧ _))

/-- isDigitChar models the regular-expression class [0-9]. -/
def isDigitChar (c : Char) : Prop :=
  '0' ≤ c ∧ c ≤ '9'

instance (c : Char) : Decidable (isDigitChar c) :=
  inferInstanceAs (Decidable (_ ∧ _))

/-- TokSt is the loop state of tokenize: tokens emitted so far, the pending
token characters, and the current character class. -/
structure TokSt where
  toks : List String
  cur : List Char
  ty : Option TokType
deriving Repr

/-- tokenizeStep is the body of the character loop of tokenize, translated
branch for branch from the source. -/
def tokenizeStep (s : TokSt) (c : Char) : TokSt :=
  if isChineseChar c then
    let toks := if s.cur ≠ [] ∧ s.ty ≠ some TokType.chinese
      then s.toks ++ [String.mk s.cur] else s.toks
    { toks := toks ++ [String.mk [c]], cur := [], ty := some TokType.chinese }
  else if isAsciiLowerChar c then
    if s.ty ≠ some TokType.english ∧ s.cur ≠ [] then
      { toks := s.toks ++ [String.mk s.cur], cur := [c], ty := some TokType.english }
    else
      { s with cur := s.cur ++ [c], ty := some TokType.english }
  else if isDigitChar c then
    if s.ty ≠ some TokType.number ∧ s.cur ≠ [] then
      { toks := s.toks ++ [String.mk s.cur], cur := [c], ty := some TokType.number }
    else
      { s with cur := s.cur ++ [c], ty := some TokType.number }
  else
    if s.cur ≠ [] then { toks := s.toks ++ [String.mk s.cur], cur := [], ty := none }
    else { s with ty := none }

/-- tokenize models the mixed Chinese and English tokenizer: every CJK
character is its own token, maximal runs of Latin letters or of digits form
one token, everything else separates. The input is lowercased first. -/
def tokenize (text : String) : List String :=
  let fin := (jsToLower text).data.foldl tokenizeStep { toks := [], cur := [], ty := none }
  if fin.cur ≠ [] then fin.toks ++ [String.mk fin.cur] else fin.toks

/-- chineseStopwords transcribes CHINESE_STOPWORDS from the source. -/
def chineseStopwords : List String :=
  ["的", "了", "在", "是", "我", "有", "和", "就", "不", "人", "都", "一", "一個",
   "上", "也", "很", "到", "說", "要", "去", "你", "會", "著", "沒有", "看", "好",
   "自己", "這", "那", "什麼", "他", "她", "它", "們", "這個", "那個", "如果",
   "但是", "因為", "所以", "可以", "沒", "把", "讓", "被", "與", "或", "及",
   "之", "等", "能", "將", "從", "為", "對", "而", "以", "其", "中", "更"]

/-- englishStopwords transcribes ENGLISH_STOPWORDS from the source. -/
def englishStopwords : List String :=
  ["the", "a", "an", "and", "or", "but", "in", "on", "at", "to", "for", "of",
   "with", "by", "from", "as", "is", "was", "are", "were", "been", "be", "have",
   "has", "had", "do", "does", "did", "will", "would", "could", "should", "may",
   "might", "must", "can", "this", "that", "these", "those", "it", "its", "they",
   "them", "their", "he", "she", "him", "her", "his", "we", "us", "our", "you",
   "your", "i", "me", "my", "not", "no", "if", "then", "than", "so", "such",
   "when", "where", "what", "which", "who", "whom", "how", "why", "all", "each",
   "every", "both", "few", "more", "most", "other", "some", "any", "only", "own",
   "same", "just", "also", "very", "even", "still", "about", "after", "before"]

/-- keepToken is the filter predicate of removeStopwords: single CJK
characters are kept unless Chinese stopwords; any other token is kept when it
is not an English stopword and has length at least 2. -/
def keepToken (t : String) : Bool :=
  if t.length = 1 ∧ isChineseChar (t.data.headD ' ') then
    !(chineseStopwords.contains t)
  else
    !(englishStopwords.contains t) && t.length > 1

/-- removeStopwords models the stopword filter of the source. -/
def removeStopwords (toks : List String) : List String :=
  toks.filter keepToken

/-- extractNgrams models the n-gram extraction: adjacent windows of length n,
concatenated without separator. -/
def extractNgrams (toks : List String) (n : Nat) : List String :=
  (List.range (toks.length + 1 - n)).map (fun i => String.join ((toks.drop i).take n))

/-- termFrequency models the term-count dictionary freq[token] += 1, built in
token order. The counts are natural numbers; call sites that do rational
arithmetic on them cast explicitly. -/
def termFrequency (toks : List String) : List (String × ℕ) :=
  toks.foldl (fun acc t => objSet acc t ((acc.lookup t).getD 0 + 1)) []

/-- tfToQ casts a term-frequency dictionary to rational values, for the call
sites that feed term frequencies into rational-valued similarity code. -/
def tfToQ (tf : List (String × ℕ)) : List (String × ℚ) :=
  tf.map (fun p => (p.1, (p.2 : ℚ)))

/-- Preprocessed is the record returned by preprocess. -/
structure Preprocessed where
  tokens : List String
  bigrams : List String
  all : List String
deriving Repr

/-- preprocess models the preprocessing pipeline: tokenize, drop stopwords,
add adjacent-pair bigrams, and return both together as all. -/
def preprocess (text : String) : Preprocessed :=
  let filtered := removeStopwords (tokenize text)
  let bigrams := extractNgrams filtered 2
  { tokens := filtered, bigrams := bigrams, all := filtered ++ bigrams }

/-- jaccardSimilarity models the source function intersection.size over
union.size on two JavaScript Sets. The source has no guard for an empty
union: in that case it computes 0 divided by 0, which is NaN, modelled here
as none. -/
def jaccardSimilarity (s1 s2 : Finset String) : Option ℚ :=
  if (s1 ∪ s2).card = 0 then none
  else some (((s1 ∩ s2).card : ℚ) / ((s1 ∪ s2).card : ℚ))

/-- cosineSimilarityQ models cosineSimilarity on term-weight dictionaries:
the key set is the union of both key lists in first-insertion order, missing
entries read as 0, and a zero norm on either side short-circuits to 0 before
any division, so no NaN can arise here. jsSqrt abstracts Math.sqrt. -/
def cosineSimilarityQ (jsSqrt : ℚ → ℚ) (v1 v2 : List (String × ℚ)) : ℚ :=
  let keys := insertionDedup (v1.map Prod.fst ++ v2.map Prod.fst)
  let get := fun (v : List (String × ℚ)) (k : String) => (v.lookup k).getD 0
  let dot := (keys.map (fun k => get v1 k * get v2 k)).sum
  let n1 := (keys.map (fun k => get v1 k * get v1 k)).sum
  let n2 := (keys.map (fun k => get v2 k * get v2 k)).sum
  if n1 = 0 ∨ n2 = 0 then 0 else dot / (jsSqrt n1 * jsSqrt n2)

/-! TF-IDF vectorizer (knowledge-intelligence/src/embeddings/vectorizer.js).
The vectorizer duplicates the cosineSimilarity code of the text utilities;
both copies are modelled by cosineSimilarityQ. -/

/-- VMeta is the metadata record that indexArticle passes to addDocument. -/
structure VMeta where
  title : String
  category : String
  tags : List String
  savedAt : Int
deriving DecidableEq, Repr

/-- VDoc is one entry of the documents array of the vectorizer. -/
structure VDoc where
  id : String
  tokens : List String
  text : String
  metadata : VMeta
  termFreq : List (String × ℕ)
deriving DecidableEq, Repr

/-- VecEntry is one entry of the vectors array built by fit. -/
structure VecEntry where
  id : String
  vector : List (String × ℚ)
  metadata : VMeta
deriving DecidableEq, Repr

/-- VecState is the instance state of the TFIDFVectorizer class. -/
structure VecState where
  documents : List VDoc
  vocabulary : List (String × ℕ)
  idf : List (String × ℚ)
  vectors : List VecEntry
  fitted : Bool
deriving DecidableEq, Repr

/-- emptyVectorizer is the constructor state of TFIDFVectorizer. -/
def emptyVectorizer : VecState :=
  { documents := [], vocabulary := [], idf := [], vectors := [], fitted := false }

/-- addDocument models TFIDFVectorizer.addDocument: preprocess the text, push
a document record, and invalidate the fitted flag. -/
def addDocument (st : VecState) (id text : String) (metadata : VMeta) : VecState :=
  let tokens := (preprocess text).all
  { st with
    documents := st.documents ++
      [{ id := id, tokens := tokens, text := text,
         metadata := metadata, termFreq := termFrequency tokens }],
    fitted := false }

/-- calcDocFreq models the document-frequency pass of calculateIDF: for each
document, each distinct token counts once. -/
def calcDocFreq (docs : List VDoc) : List (String × ℕ) :=
  docs.foldl
    (fun acc d => (insertionDedup d.tokens).foldl
      (fun acc2 t => objSet acc2 t ((acc2.lookup t).getD 0 + 1)) acc)
    []

/-- applyIDF models the second loop of calculateIDF: for every document
frequency entry it writes idf[term] = jsLog((numDocs + 1) / (freq + 1)) + 1
and vocabulary[term] = current number of vocabulary keys. The accumulator
carries both dictionaries, in loop order, exactly as the source mutates both
in one loop body. Note that the vocabulary update overwrites the index of a
term that is already present. -/
def applyIDF (jsLog : ℚ → ℚ) (numDocs : ℕ) (df : List (String × ℕ))
    (idf0 : List (String × ℚ)) (voc0 : List (String × ℕ)) :
    List (String × ℚ) × List (String × ℕ) :=
  df.foldl
    (fun acc p =>
      (objSet acc.1 p.1 (jsLog (((numDocs : ℚ) + 1) / ((p.2 : ℚ) + 1)) + 1),
       objSet acc.2 p.1 acc.2.length))
    (idf0, voc0)

/-- calculateIDF models TFIDFVectorizer.calculateIDF. It updates the idf and
vocabulary dictionaries in place, starting from their current contents: the
source never clears them. -/
def calculateIDF (jsLog : ℚ → ℚ) (st : VecState) : VecState :=
  let df := calcDocFreq st.documents
  let r := applyIDF jsLog st.documents.length df st.idf st.vocabulary
  { st with idf := r.1, vocabulary := r.2 }

/-- vectorize models TFIDFVectorizer.vectorize: normalized term frequency
times idf weight, restricted to terms whose idf entry is truthy (present and
nonzero). maxFreq is Math.max of the counts and 1. -/
def vectorize (idf : List (String × ℚ)) (tf : List (String × ℕ)) : List (String × ℚ) :=
  let maxFreq : ℕ := (tf.map Prod.snd).foldr max 1
  tf.filterMap (fun p =>
    match idf.lookup p.1 with
    | some w => if w ≠ 0 then some (p.1, ((p.2 : ℚ) / (maxFreq : ℚ)) * w) else none
    | none => none)

/-- fit models TFIDFVectorizer.fit: an empty corpus throws; otherwise it runs
calculateIDF, rebuilds every document vector, and sets the fitted flag. -/
def fit (jsLog : ℚ → ℚ) (st : VecState) : Except String VecState :=
  if st.documents.length = 0 then .error "沒有文檔可以訓練"
  else
    let st2 := calculateIDF jsLog st
    .ok { st2 with
      vectors := st2.documents.map (fun d =>
        { id := d.id, vector := vectorize st2.idf d.termFreq, metadata := d.metadata }),
      fitted := true }

/-- fitOk extracts the successor state of a successful fit and leaves the
state unchanged on the error path; used to state refit properties. -/
def fitOk (jsLog : ℚ → ℚ) (st : VecState) : VecState :=
  match fit jsLog st with
  | .ok s => s
  | .error _ => st

/-- transformQuery models TFIDFVectorizer.transformQuery: preprocess the
query and vectorize its term frequencies against the fitted idf table. -/
def transformQuery (idf : List (String × ℚ)) (query : String) : List (String × ℚ) :=
  vectorize idf (termFrequency (preprocess query).all)

/-- SearchHit is one scored entry returned by the vectorizer search. -/
structure SearchHit where
  id : String
  score : ℚ
  metadata : VMeta
deriving DecidableEq, Repr

/-- searchFitted is the body of TFIDFVectorizer.search once the model is
fitted: score every document vector against the query vector, keep strictly
positive scores, sort descending by score (stable), take the first topK. -/
def searchFitted (jsSqrt : ℚ → ℚ) (idf : List (String × ℚ)) (vectors : List VecEntry)
    (query : String) (topK : ℕ) : List SearchHit :=
  let qv := transformQuery idf query
  let scores := vectors.map (fun d =>
    { id := d.id, score := cosineSimilarityQ jsSqrt qv d.vector, metadata := d.metadata })
  (sortByDescQ (fun s => s.score) (scores.filter (fun s => 0 < s.score))).take topK

/-- vecSearch models TFIDFVectorizer.search including the lazy fit: an
unfitted vectorizer is fitted first and a fit failure propagates. -/
def vecSearch (jsLog jsSqrt : ℚ → ℚ) (st : VecState) (query : String) (topK : ℕ) :
    Except String (List SearchHit) :=
  if st.fitted then .ok (searchFitted jsSqrt st.idf st.vectors query topK)
  else (fit jsLog st).map (fun st2 => searchFitted jsSqrt st2.idf st2.vectors query topK)

/-! Semantic search (knowledge-intelligence/src/search/semantic.js). -/

/-- Article is the external article record. Optional string fields are
conflated with the empty string (see header); a missing savedAt is the epoch
value 0, matching the savedAt-or-0 defaulting in the source. -/
structure Article where
  id : String
  title : String
  content : String
  summary : String
  keyPoints : List String
  tags : List String
  category : String
  url : String
  savedAt : Int
deriving DecidableEq, Repr

/-- SemState is the instance state of the SemanticSearch class: the owned
vectorizer and the article store (a Map keyed by article id, modelled as an
insertion-ordered association list). -/
structure SemState where
  vec : VecState
  articles : List (String × Article)
deriving Repr

/-- emptySemanticSearch is the constructor state of SemanticSearch. -/
def emptySemanticSearch : SemState :=
  { vec := emptyVectorizer, articles := [] }

/-- indexArticle models SemanticSearch.indexArticle: store the article under
its id and add its searchable text blob to the vectorizer. -/
def indexArticle (st : SemState) (a : Article) : SemState :=
  let searchableText :=
    String.intercalate " " ([a.title, a.content, a.summary] ++ a.keyPoints ++ a.tags)
  { vec := addDocument st.vec a.id searchableText
      { title := a.title, category := a.category, tags := a.tags, savedAt := a.savedAt },
    articles := objSet st.articles a.id a }

/-- indexArticles models SemanticSearch.indexArticles: index every article,
then run one batch fit (whose empty-corpus failure propagates). -/
def indexArticles (jsLog : ℚ → ℚ) (st : SemState) (arts : List Article) :
    Except String SemState :=
  let st2 := arts.foldl indexArticle st
  (fit jsLog st2.vec).map (fun v => { st2 with vec := v })

/-- isSentenceSep recognizes the sentence-ending characters of the split
pattern used for snippets. -/
def isSentenceSep (c : Char) : Bool :=
  c = '。' || c = '！' || c = '？' || c = '.' || c = '!' || c = '?'

/-- splitSentences models content.split on the sentence separators. Splitting
at every separator can produce extra empty pieces where the regex merges a
run of separators; every caller filters by trimmed length immediately after,
which removes exactly those pieces, so the observable result agrees. -/
def splitSentences (s : String) : List String :=
  (s.data.splitOnP isSentenceSep).map String.mk

/-- jsTrim models String.prototype.trim. -/
def jsTrim (s : String) : String :=
  s.trim

/-- extractRelevantSnippets models SemanticSearch.extractRelevantSnippets:
sentences longer than 15 characters after trimming, scored by query-token
overlap over the query-token-set size, positive scores only, sorted
descending, first maxSnippets, trimmed. -/
def extractRelevantSnippets (query content : String) (maxSnippets : ℕ) : List String :=
  let queryTokens := insertionDedup (preprocess query).tokens
  let sentences := (splitSentences content).filter (fun s => 15 < (jsTrim s).length)
  let scored := sentences.map (fun s =>
    let sentTokens := (preprocess s).tokens
    let overlap := (sentTokens.filter (fun t => queryTokens.contains t)).length
    (jsTrim s, ((overlap : ℚ) / ((max queryTokens.length 1 : ℕ) : ℚ))))
  ((sortByDescQ Prod.snd (scored.filter (fun p => 0 < p.2))).take maxSnippets).map Prod.fst

/-- EnhResult is one enriched search result of SemanticSearch.search. The
Option fields model result-object fields that the source only sets
conditionally. -/
structure EnhResult where
  id : String
  score : ℚ
  metadata : VMeta
  title : String
  category : String
  tags : List String
  url : String
  savedAt : Int
  snippets : Option (List String)
  summary : Option String
  keyPoints : Option (List String)
deriving DecidableEq, Repr

/-- enhance models the result-enrichment map inside SemanticSearch.search.
A missing article id yields the Unknown title and default fields, exactly as
the optional-chaining defaults do. The keyPoints field is set whenever the
article is present, because an empty array is truthy in JavaScript. -/
def enhance (st : SemState) (query : String) (includeSnippets : Bool) (r : SearchHit) :
    EnhResult :=
  match st.articles.lookup r.id with
  | some a =>
    { id := r.id, score := r.score, metadata := r.metadata,
      title := if a.title = "" then "Unknown" else a.title,
      category := a.category, tags := a.tags, url := a.url, savedAt := a.savedAt,
      snippets := if includeSnippets ∧ a.content ≠ ""
        then some (extractRelevantSnippets query a.content 3) else none,
      summary := if a.summary ≠ "" then some a.summary else none,
      keyPoints := some a.keyPoints }
  | none =>
    { id := r.id, score := r.score, metadata := r.metadata, title := "Unknown",
      category := "", tags := [], url := "", savedAt := 0,
      snippets := none, summary := none, keyPoints := none }

/-- semSearch models SemanticSearch.search: delegate to the vectorizer search
(which performs the same lazy fit the method itself repeats), keep results
with score at least minScore, and enrich each one. -/
def semSearch (jsLog jsSqrt : ℚ → ℚ) (st : SemState) (query : String) (topK : ℕ)
    (minScore : ℚ) (includeSnippets : Bool) : Except String (List EnhResult) :=
  (vecSearch jsLog jsSqrt st.vec query topK).map (fun hits =>
    (hits.filter (fun h => minScore ≤ h.score)).map (enhance st query includeSnippets))

/-- ContextEntry is one entry of the context array of searchWithContext. -/
structure ContextEntry where
  title : String
  relevance : ℚ
  snippets : List String
  summary : Option String
  keyPoints : Option (List String)
  source : String
deriving DecidableEq, Repr

/-- ContextResult is the record returned by searchWithContext. -/
structure ContextResult where
  question : String
  results : List ContextEntry
  hasRelevantInfo : Bool
deriving DecidableEq, Repr

/-- searchWithContext models SemanticSearch.searchWithContext: search with
the default minimum score of 0.1 and snippets on, build the context entries,
and set hasRelevantInfo to the test results.length greater than 0 and
results[0].score strictly greater than 0.15. -/
def searchWithContext (jsLog jsSqrt : ℚ → ℚ) (st : SemState) (question : String)
    (topK : ℕ) : Except String ContextResult :=
  (semSearch jsLog jsSqrt st question topK (1/10) true).map (fun results =>
    { question := question,
      results := results.map (fun r =>
        { title := r.title, relevance := r.score, snippets := r.snippets.getD [],
          summary := r.summary, keyPoints := r.keyPoints, source := r.url }),
      hasRelevantInfo :=
        match results with
        | [] => false
        | r :: _ => decide ((3/20 : ℚ) < r.score) })

/-- findSimilar models SemanticSearch.findSimilar: a missing article id
returns the empty list immediately; otherwise search with the article text as
query and topK + 1 hits, drop the source article, and keep topK. -/
def findSimilar (jsLog jsSqrt : ℚ → ℚ) (st : SemState) (articleId : String)
    (topK : ℕ) : Except String (List EnhResult) :=
  match st.articles.lookup articleId with
  | none => .ok []
  | some a =>
    let searchText := String.intercalate " " ([a.title, a.summary] ++ a.keyPoints)
    (semSearch jsLog jsSqrt st searchText (topK + 1) (1/10) true).map (fun rs =>
      (rs.filter (fun r => r.id ≠ articleId)).take topK)

/-! Trend analyzer (knowledge-intelligence/src/analysis/trends.js). Dates are
epoch milliseconds; analyzeTrend takes the current time as a parameter. -/

/-- TimelineEntry is one entry of the timeline built by buildTimeline. -/
structure TimelineEntry where
  date : Int
  title : String
  id : String
  category : String
  keyPoints : List String
deriving DecidableEq, Repr

/-- timelineFilterPred is the tag filter of buildTimeline: exact membership
in the tags array, or case-insensitive substring of the title or content. -/
def timelineFilterPred (tag : String) (a : Article) : Bool :=
  a.tags.contains tag
    || strContains (jsToLower a.title) (jsToLower tag)
    || strContains (jsToLower a.content) (jsToLower tag)

/-- toTimelineEntry is the projection applied to each article of the sorted
timeline. -/
def toTimelineEntry (a : Article) : TimelineEntry :=
  { date := a.savedAt, title := a.title, id := a.id, category := a.category,
    keyPoints := a.keyPoints.take 2 }

/-- buildTimelineRun models TrendAnalyzer.buildTimeline together with its
effect on the stored article array. When a truthy tag is given, filter
produces a fresh array and sorting it leaves the stored array alone; with no
tag (or the falsy empty string) the filtered variable aliases the stored
array, so the in-place sort reorders the stored array itself. The first
component is the returned timeline, the second the article array as stored
after the call. -/
def buildTimelineRun (arts : List Article) (otag : Option String) :
    List TimelineEntry × List Article :=
  let useFilter : Bool := match otag with
    | some t => t != ""
    | none => false
  if useFilter then
    let t := otag.getD ""
    let filtered := arts.filter (timelineFilterPred t)
    ((sortByAscInt (fun a => a.savedAt) filtered).map toTimelineEntry, arts)
  else
    let sorted := sortByAscInt (fun a => a.savedAt) arts
    (sorted.map toTimelineEntry, sorted)

/-- buildTimeline is the returned timeline of buildTimelineRun. -/
def buildTimeline (arts : List Article) (otag : Option String) : List TimelineEntry :=
  (buildTimelineRun arts otag).1

/-- TrendResult is the record returned by analyzeTrend. The source returns
two object shapes (a short no_data shape and the full shape); fields absent
from a shape are modelled as none or a zero default, noted per field. -/
structure TrendResult where
  tag : String
  articleCount : ℕ
  trend : String
  message : Option String
  trendDescription : Option String
  recentCount : ℕ
  olderCount : ℕ
  firstMention : Option Int
  lastMention : Option Int
  timeline : List TimelineEntry
  keyPointsEvolution : List (Int × List String)
deriving DecidableEq, Repr

/-- analyzeTrend models TrendAnalyzer.analyzeTrend at the instant now: an
empty timeline is no_data; otherwise the recent window is the last 30 days
and the older window the 30 days before it, and the classification chain is
rising, then declining, then new on a one-entry timeline, else stable. -/
def analyzeTrend (now : Int) (arts : List Article) (tag : String) : TrendResult :=
  let timeline := buildTimeline arts (some tag)
  if timeline.length = 0 then
    { tag := tag, articleCount := 0, trend := "no_data",
      message := some ("沒有找到與「" ++ tag ++ "」相關的文章"),
      trendDescription := none, recentCount := 0, olderCount := 0,
      firstMention := none, lastMention := none, timeline := [],
      keyPointsEvolution := [] }
  else
    let thirtyDaysAgo : Int := now - 30 * 24 * 60 * 60 * 1000
    let sixtyDaysAgo : Int := now - 60 * 24 * 60 * 60 * 1000
    let recentCount := (timeline.filter (fun a => thirtyDaysAgo < a.date)).length
    let olderCount := (timeline.filter (fun a =>
      sixtyDaysAgo < a.date ∧ a.date ≤ thirtyDaysAgo)).length
    let td : String × String :=
      if (olderCount : ℚ) * 1.5 < (recentCount : ℚ) then ("rising", "關注度上升 📈")
      else if (recentCount : ℚ) < (olderCount : ℚ) * 0.5 ∧ 0 < olderCount then
        ("declining", "關注度下降 📉")
      else if timeline.length = 1 then ("new", "新興主題 🆕")
      else ("stable", "穩定關注中")
    let kpot := (timeline.map (fun a => (a.date, a.keyPoints))).filter
      (fun p => 0 < p.2.length)
    { tag := tag, articleCount := timeline.length, trend := td.1,
      message := none, trendDescription := some td.2,
      recentCount := recentCount, olderCount := olderCount,
      firstMention := timeline.head?.map (fun a => a.date),
      lastMention := timeline.getLast?.map (fun a => a.date),
      timeline := timeline.drop (timeline.length - 10),
      keyPointsEvolution := kpot.drop (kpot.length - 5) }

/-! Connection discovery (knowledge-intelligence/src/analysis/connections.js). -/

/-- jsGtO models a strict greater-than comparison whose left side may be the
NaN produced by an unguarded division: every comparison with NaN is false. -/
def jsGtO (x : Option ℚ) (t : ℚ) : Bool :=
  match x with
  | some v => decide (t < v)
  | none => false

/-- contentBlob is the title-summary-keyPoints text that calculateRelation
builds for each article before computing topic similarity. -/
def contentBlob (a : Article) : String :=
  String.intercalate " " ([a.title, a.summary] ++ a.keyPoints)

/-- Relation is the record returned by calculateRelation. keyPointSimilarity
and totalScore are Options because the unguarded Jaccard division can yield
NaN, which then propagates into the weighted sum. -/
structure Relation where
  tagOverlap : ℚ
  topicSimilarity : ℚ
  keyPointSimilarity : Option ℚ
  totalScore : Option ℚ
  types : List String
  sharedTags : List String
deriving DecidableEq, Repr

/-- relSharedTags is the sharedTags local of calculateRelation: the spread of
the Set of the first tag array filtered by membership in the Set of the
second, so first-occurrence order of the first article. -/
def relSharedTags (a1 a2 : Article) : List String :=
  (insertionDedup a1.tags).filter (fun t => (insertionDedup a2.tags).contains t)

/-- relTagOverlap is the tagOverlap field: shared-tag count over the guarded
maximum of the two tag-set sizes. -/
def relTagOverlap (a1 a2 : Article) : ℚ :=
  ((relSharedTags a1 a2).length : ℚ) /
    ((max (insertionDedup a1.tags).length (max (insertionDedup a2.tags).length 1) : ℕ) : ℚ)

/-- relTitleSimilarity is the titleSimilarity local: Jaccard similarity of
the title token sets. -/
def relTitleSimilarity (a1 a2 : Article) : Option ℚ :=
  jaccardSimilarity (preprocess a1.title).tokens.toFinset (preprocess a2.title).tokens.toFinset

/-- relTopicSimilarity is the topicSimilarity field: cosine similarity of the
term-frequency dictionaries of the content blobs. -/
def relTopicSimilarity (jsSqrt : ℚ → ℚ) (a1 a2 : Article) : ℚ :=
  cosineSimilarityQ jsSqrt
    (tfToQ (termFrequency (preprocess (contentBlob a1)).tokens))
    (tfToQ (termFrequency (preprocess (contentBlob a2)).tokens))

/-- relKeyPointText is the kp1 local: the key points joined by spaces. -/
def relKeyPointText (a : Article) : String :=
  String.intercalate " " a.keyPoints

/-- relKeyPointSimilarity is the keyPointSimilarity field: Jaccard of the
key-point token sets, computed only when both joined key-point texts are
truthy, otherwise left at its initial 0. -/
def relKeyPointSimilarity (a1 a2 : Article) : Option ℚ :=
  if relKeyPointText a1 ≠ "" ∧ relKeyPointText a2 ≠ "" then
    jaccardSimilarity
      (preprocess (relKeyPointText a1)).tokens.toFinset
      (preprocess (relKeyPointText a2)).tokens.toFinset
  else some 0

/-- relTotalScore is the totalScore field: the fixed weights 0.4, 0.4, 0.2
applied to tag overlap, topic similarity and key-point similarity. A NaN
key-point similarity propagates into the sum. -/
def relTotalScore (jsSqrt : ℚ → ℚ) (a1 a2 : Article) : Option ℚ :=
  (relKeyPointSimilarity a1 a2).map (fun k =>
    relTagOverlap a1 a2 * 0.4 + relTopicSimilarity jsSqrt a1 a2 * 0.4 + k * 0.2)

/-- relDaysDiff is the daysDiff local: absolute saved-time difference in
days. -/
def relDaysDiff (a1 a2 : Article) : ℚ :=
  ((a1.savedAt - a2.savedAt).natAbs : ℚ) / (1000 * 60 * 60 * 24)

/-- relTypes assembles the types array in source push order: common theme on
two shared tags, similar title on title Jaccard above 0.3, related viewpoint
on key-point similarity above 0.2 (only when computed), same category on
equal truthy categories, recently related on a saved-time difference of at
most 7 days and a total score above 0.2. -/
def relTypes (jsSqrt : ℚ → ℚ) (a1 a2 : Article) : List String :=
  (if 2 ≤ (relSharedTags a1 a2).length then ["共同主題"] else []) ++
  (if jsGtO (relTitleSimilarity a1 a2) 0.3 then ["標題相似"] else []) ++
  (if relKeyPointText a1 ≠ "" ∧ relKeyPointText a2 ≠ "" then
    (if jsGtO (relKeyPointSimilarity a1 a2) 0.2 then ["觀點相關"] else []) else []) ++
  (if a1.category = a2.category ∧ a1.category ≠ "" then ["同類文章"] else []) ++
  (if relDaysDiff a1 a2 ≤ 7 ∧ jsGtO (relTotalScore jsSqrt a1 a2) 0.2 then ["近期相關"] else [])

/-- calculateRelation models ConnectionDiscovery.calculateRelation: tag
overlap over the larger tag-set size, title Jaccard for the similar-title
label, cosine topic similarity of the content blobs, key-point Jaccard when
both articles have a nonempty key-point text, the fixed 0.4 0.4 0.2 weighted
total, and the five relation-type labels in source order. The locals of the
source function are the rel-named definitions above. -/
def calculateRelation (jsSqrt : ℚ → ℚ) (a1 a2 : Article) : Relation :=
  { tagOverlap := relTagOverlap a1 a2,
    topicSimilarity := relTopicSimilarity jsSqrt a1 a2,
    keyPointSimilarity := relKeyPointSimilarity a1 a2,
    totalScore := relTotalScore jsSqrt a1 a2,
    types := relTypes jsSqrt a1 a2,
    sharedTags := relSharedTags a1 a2 }

/-! QA engine intent analysis (knowledge-intelligence/src/qa/engine.js,
QAEngine.analyzeQuestion). -/

/-- QaPat is one intent regular expression: either a plain substring test
(every pattern of the source except one is a literal, with the i flag
subsumed by testing on the lowercased question), or the one genuine regex,
matching a 和 followed anywhere later by a 比. In JavaScript the dot does not
match a line terminator; the model ignores that caveat, which is irrelevant
to single-line questions. -/
inductive QaPat where
  | sub (s : String)
  | andThenBi
deriving DecidableEq, Repr

/-- patMatches evaluates one pattern against the lowercased question. For
andThenBi, testing after the first 和 is complete: any 比 after a later 和 is
also after the first one. -/
def patMatches (s : String) : QaPat → Bool
  | .sub p => strContains s p
  | .andThenBi =>
    match s.data.dropWhile (fun c => c ≠ '和') with
    | [] => false
    | _ :: rest => rest.contains '比'

/-- qaPatterns transcribes the ordered pattern groups of analyzeQuestion. -/
def qaPatterns : List (String × List QaPat) :=
  [("definition", [.sub "什麼是", .sub "何謂", .sub "怎麼理解",
      .sub "what is", .sub "define", .sub "explain"]),
   ("comparison", [.andThenBi, .sub "區別", .sub "差異", .sub "不同",
      .sub "vs", .sub "compare", .sub "difference"]),
   ("listing", [.sub "有哪些", .sub "列出", .sub "包括",
      .sub "what are", .sub "list"]),
   ("reason", [.sub "為什麼", .sub "原因", .sub "why", .sub "reason"]),
   ("summary", [.sub "總結", .sub "摘要", .sub "概括",
      .sub "summarize", .sub "summary"]),
   ("trend", [.sub "趨勢", .sub "發展", .sub "未來", .sub "trend", .sub "future"]),
   ("opinion", [.sub "觀點", .sub "看法", .sub "認為",
      .sub "opinion", .sub "think", .sub "view"])]

/-- matchGroup is the inner pattern loop of analyzeQuestion. -/
def matchGroup (s : String) : List QaPat → Bool
  | [] => false
  | p :: ps => patMatches s p || matchGroup s ps

/-- dispatchGroups is the outer group loop of analyzeQuestion: the first
group with a matching pattern wins, otherwise general. -/
def dispatchGroups (s : String) : List (String × List QaPat) → String
  | [] => "general"
  | (name, ps) :: rest => if matchGroup s ps then name else dispatchGroups s rest

/-- analyzeQuestion models QAEngine.analyzeQuestion: lowercase the question
and dispatch over the fixed ordered pattern groups. -/
def analyzeQuestion (q : String) : String :=
  dispatchGroups (jsToLower q) qaPatterns

/-! Concrete articles and interpretation used by the closed evaluation
theorems. qOne is a concrete instantiation of the jsLog and jsSqrt
parameters; every closed evaluation below only exercises code paths whose
value does not depend on the interpretation of these parameters (integer and
string computations, and NaN paths short-circuited before any square root or
logarithm is consumed). -/

/-- qOne is the constant-one interpretation of the abstract numeric
primitives, used to instantiate closed evaluations. -/
def qOne : ℚ → ℚ := fun _ => 1

/-- nanArticle1 has key points whose preprocessed token set is empty (the
single key point is the Chinese stopword 的), and an empty title. -/
def nanArticle1 : Article :=
  { id := "n1", title := "", content := "", summary := "", keyPoints := ["的"],
    tags := [], category := "", url := "", savedAt := 0 }

/-- nanArticle2 is a second article of the same failing shape. -/
def nanArticle2 : Article :=
  { id := "n2", title := "", content := "", summary := "", keyPoints := ["的"],
    tags := [], category := "", url := "", savedAt := 0 }

/-- tagOrderArticle1 shares both tags with tagOrderArticle2, listed in the
opposite order. -/
def tagOrderArticle1 : Article :=
  { id := "t1", title := "", content := "", summary := "", keyPoints := [],
    tags := ["x", "y"], category := "", url := "", savedAt := 0 }

/-- tagOrderArticle2 lists the same two tags in the opposite order. -/
def tagOrderArticle2 : Article :=
  { id := "t2", title := "", content := "", summary := "", keyPoints := [],
    tags := ["y", "x"], category := "", url := "", savedAt := 0 }

/-- demoVecDoc is a one-document vectorizer state used to witness the
nonempty branch of C7. -/
def demoVecDoc : VecState :=
  addDocument emptyVectorizer "d1" "hello world"
    { title := "hello world", category := "", tags := [], savedAt := 0 }

/-- unsortedArticleA is saved later than unsortedArticleB; listing it first
gives a stored array that is not date-sorted. -/
def unsortedArticleA : Article :=
  { id := "u1", title := "", content := "", summary := "", keyPoints := [],
    tags := [], category := "", url := "", savedAt := 2000 }

/-- unsortedArticleB is the earlier-saved article of the C9 pair. -/
def unsortedArticleB : Article :=
  { id := "u2", title := "", content := "", summary := "", keyPoints := [],
    tags := [], category := "", url := "", savedAt := 1000 }

/-! C4: trend classification of a tag with exactly one article. -/

/-- trendNow is a concrete current time (milliseconds) for the C4
counterexample. -/
def trendNow : Int := 10000000000000

/-- recentSingleArticle is the only article of its tag and was saved one day
before trendNow, inside the recent window. -/
def recentSingleArticle : Article :=
  { id := "r1", title := "", content := "", summary := "", keyPoints := [],
    tags := ["x"], category := "", url := "", savedAt := 9999913600000 }

/-- trendNow2 is the concrete current time of the C4 witness. -/
def trendNow2 : Int := 20000000000000

/-- ancientArticle is the only article of its tag and was saved at the
epoch, far outside both rolling windows of trendNow2. -/
def ancientArticle : Article :=
  { id := "anc", title := "", content := "", summary := "", keyPoints := [],
    tags := ["z"], category := "", url := "", savedAt := 0 }

/-- demoSemFitted is a fitted search state with no vectors, on which the
search pipeline evaluates by pure computation. -/
def demoSemFitted : SemState :=
  { vec := { emptyVectorizer with fitted := true }, articles := [] }

/-- demoSemOneArticle stores one article under id a on a fitted vectorizer
with no vectors, so findSimilar on it computes to the empty ok result. -/
def demoSemOneArticle : SemState :=
  { vec := { emptyVectorizer with fitted := true },
    articles := [("a",
      { id := "a", title := "t", content := "", summary := "", keyPoints := [],
        tags := [], category := "", url := "", savedAt := 0 })] }

/-! C1: the key invariant of objSet dictionaries and the two standalone
halves of the calculateIDF loop, used by the refit lemmas further below. -/

/-- NodupKeys states that an association list has pairwise distinct keys,
the invariant of every JavaScript-object model built by objSet. -/
def NodupKeys {β : Type} (l : List (String × β)) : Prop :=
  (l.map Prod.fst).Nodup

/-- foldVoc is the vocabulary half of the calculateIDF loop, as a standalone
fold for the lemmas below. -/
def foldVoc (df : List (String × ℕ)) (voc0 : List (String × ℕ)) : List (String × ℕ) :=
  df.foldl (fun acc p => objSet acc p.1 acc.length) voc0

/-- foldIdf is the idf half of the calculateIDF loop, as a standalone fold. -/
def foldIdf (jsLog : ℚ → ℚ) (numDocs : ℕ) (df : List (String × ℕ))
    (idf0 : List (String × ℚ)) : List (String × ℚ) :=
  df.foldl (fun acc p =>
    objSet acc p.1 (jsLog (((numDocs : ℚ) + 1) / ((p.2 : ℚ) + 1)) + 1)) idf0

/-- c1Vec is a fresh vectorizer with one two-word document, the concrete
corpus of the C1 counterexample. The vocabulary values below do not depend
on the interpretation of the numeric primitives (indices are integer key
counts). -/
def c1Vec : VecState :=
  addDocument emptyVectorizer "d1" "hello world"
    { title := "", category := "", tags := [], savedAt := 0 }

/-! Theorems: supporting lemmas and the claim theorems, witnesses and
counterexamples. -/

/-! Supporting lemmas about the dictionary and set helpers. -/

theorem mem_dedupKeepFirst {α : Type} [DecidableEq α] {x : α} :
    ∀ {seen l : List α}, x ∈ dedupKeepFirst seen l ↔ x ∈ l ∧ x ∉ seen := by
  intro seen l
  induction l generalizing seen with
  | nil => simp [dedupKeepFirst]
  | cons y ys ih =>
    by_cases hy : y ∈ seen
    · rw [dedupKeepFirst, if_pos hy, ih]
      constructor
      · rintro ⟨h1, h2⟩
        exact ⟨List.mem_cons_of_mem _ h1, h2⟩
      · rintro ⟨h1, h2⟩
        rcases List.mem_cons.mp h1 with h | h
        · exact absurd (h ▸ hy) h2
        · exact ⟨h, h2⟩
    · rw [dedupKeepFirst, if_neg hy]
      constructor
      · intro hmem
        rcases List.mem_cons.mp hmem with h | h
        · exact ⟨List.mem_cons.mpr (Or.inl h), h ▸ hy⟩
        · obtain ⟨h1, h2⟩ := ih.mp h
          exact ⟨List.mem_cons.mpr (Or.inr h1),
            fun hx => h2 (List.mem_cons_of_mem _ hx)⟩
      · rintro ⟨h1, h2⟩
        rcases List.mem_cons.mp h1 with h | h
        · exact List.mem_cons.mpr (Or.inl h)
        · by_cases hxy : x = y
          · exact List.mem_cons.mpr (Or.inl hxy)
          · refine List.mem_cons.mpr (Or.inr (ih.mpr ⟨h, fun hx => ?_⟩))
            rcases List.mem_cons.mp hx with h3 | h3
            · exact hxy h3
            · exact h2 h3

theorem nodup_dedupKeepFirst {α : Type} [DecidableEq α] :
    ∀ {seen l : List α}, (dedupKeepFirst seen l).Nodup := by
  intro seen l
  induction l generalizing seen with
  | nil => simp [dedupKeepFirst]
  | cons y ys ih =>
    by_cases hy : y ∈ seen
    · rw [dedupKeepFirst, if_pos hy]
      exact ih
    · rw [dedupKeepFirst, if_neg hy]
      refine List.nodup_cons.mpr ⟨fun hmem => ?_, ih⟩
      exact (mem_dedupKeepFirst.mp hmem).2 (List.mem_cons_self _ _)

theorem mem_insertionDedup {α : Type} [DecidableEq α] {x : α} {l : List α} :
    x ∈ insertionDedup l ↔ x ∈ l := by
  simp [insertionDedup, mem_dedupKeepFirst]

theorem nodup_insertionDedup {α : Type} [DecidableEq α] {l : List α} :
    (insertionDedup l).Nodup :=
  nodup_dedupKeepFirst

/-- C2: the failing input of the unguarded Jaccard similarity is a pair of
empty sets. -/
theorem C2_jaccard_empty_sets_nan : jaccardSimilarity (∅ : Finset String) ∅ = none := by
  decide

/-- C3: at the failing input, both joined key-point texts are truthy but both
key-point token sets are empty, so the key-point Jaccard call divides zero by
zero and its NaN propagates into totalScore; the title Jaccard call on the
two empty titles is likewise NaN. This contradicts the claim that totalScore
is always in the unit interval and that every Jaccard call returns a
number in the unit interval. -/
theorem C3_totalScore_nan_at_failing_input :
    (calculateRelation qOne nanArticle1 nanArticle2).totalScore = none ∧
    (calculateRelation qOne nanArticle1 nanArticle2).keyPointSimilarity = none ∧
    relTitleSimilarity nanArticle1 nanArticle2 = none := by
  refine ⟨?_, ?_, ?_⟩ <;> decide

/-- C6 counterexample: swapping the argument order yields sharedTags arrays
with the same elements in different order, so the two calls do not return
the same sharedTags value. -/
theorem C6_sharedTags_order_cex :
    (calculateRelation qOne tagOrderArticle1 tagOrderArticle2).sharedTags = ["x", "y"] ∧
    (calculateRelation qOne tagOrderArticle2 tagOrderArticle1).sharedTags = ["y", "x"] := by
  refine ⟨?_, ?_⟩ <;> decide

/-- C7: fit fails exactly on an empty document set, with the EmptyCorpus
error, and on a nonempty document set it returns a fitted state. -/
theorem C7_fit_empty_corpus (jsLog : ℚ → ℚ) (st : VecState) :
    (st.documents = [] → fit jsLog st = .error "沒有文檔可以訓練") ∧
    (st.documents ≠ [] → ∃ st2, fit jsLog st = .ok st2 ∧ st2.fitted = true) := by
  constructor
  · intro h
    simp [fit, h]
  · intro h
    have hlen : ¬ st.documents.length = 0 := by
      simpa [List.length_eq_zero] using h
    simp only [fit, if_neg hlen]
    exact ⟨_, rfl, rfl⟩

/-- C7 witness: the empty constructor state errors, the one-document state
fits. -/
theorem C7_fit_empty_corpus_witness :
    fit qOne emptyVectorizer = .error "沒有文檔可以訓練" ∧
    ∃ st2, fit qOne demoVecDoc = .ok st2 ∧ st2.fitted = true :=
  ⟨(C7_fit_empty_corpus qOne emptyVectorizer).1 rfl,
   (C7_fit_empty_corpus qOne demoVecDoc).2 (by decide)⟩

/-! The C8 dispatch lemmas: the outer loop of analyzeQuestion returns the
first group in declaration order whose pattern list matches, and general
when none does. -/

theorem dispatchGroups_of_no_match (s : String) :
    ∀ gs : List (String × List QaPat), (∀ g ∈ gs, matchGroup s g.2 = false) →
      dispatchGroups s gs = "general"
  | [], _ => rfl
  | (n0, p0) :: rest, h => by
    have h0 : matchGroup s p0 = false := h _ (List.mem_cons_self _ _)
    rw [dispatchGroups, if_neg (by simp [h0])]
    exact dispatchGroups_of_no_match s rest (fun g hg => h g (List.mem_cons_of_mem _ hg))

theorem dispatchGroups_first_match (s name : String) (pats : List QaPat) :
    ∀ g1 g2, (∀ g ∈ g1, matchGroup s g.2 = false) → matchGroup s pats = true →
      dispatchGroups s (g1 ++ (name, pats) :: g2) = name
  | [], g2, _, hm => by
    rw [List.nil_append, dispatchGroups, if_pos (by simp [hm])]
  | (n0, p0) :: rest, g2, h, hm => by
    have h0 : matchGroup s p0 = false := h _ (List.mem_cons_self _ _)
    rw [List.cons_append, dispatchGroups, if_neg (by simp [h0])]
    exact dispatchGroups_first_match s name pats rest g2
      (fun g hg => h g (List.mem_cons_of_mem _ hg)) hm

/-- C8: analyzeQuestion dispatches by ordered first match over the fixed
pattern groups (the first group whose pattern list matches wins, and with no
match anywhere the result is general), and the three scenario questions map
to definition, listing and reason. -/
theorem C8_analyzeQuestion_dispatch :
    (analyzeQuestion "什麼是 RWA？" = "definition" ∧
     analyzeQuestion "有哪些穩定幣？" = "listing" ∧
     analyzeQuestion "為什麼代幣化重要？" = "reason") ∧
    (∀ q : String, (∀ g ∈ qaPatterns, matchGroup (jsToLower q) g.2 = false) →
      analyzeQuestion q = "general") ∧
    (∀ (q name : String) (pats : List QaPat) (g1 g2 : List (String × List QaPat)),
      qaPatterns = g1 ++ (name, pats) :: g2 →
      (∀ g ∈ g1, matchGroup (jsToLower q) g.2 = false) →
      matchGroup (jsToLower q) pats = true →
      analyzeQuestion q = name) := by
  refine ⟨⟨by decide, by decide, by decide⟩, ?_, ?_⟩
  · intro q h
    exact dispatchGroups_of_no_match (jsToLower q) qaPatterns h
  · intro q name pats g1 g2 heq h hm
    unfold analyzeQuestion
    rw [heq]
    exact dispatchGroups_first_match (jsToLower q) name pats g1 g2 h hm

/-- C8 witness: a question matching no pattern group dispatches to general,
through the no-match clause of the dispatch theorem. -/
theorem C8_analyzeQuestion_witness : analyzeQuestion "哈哈" = "general" :=
  C8_analyzeQuestion_dispatch.2.1 "哈哈" (by decide)

/-- C9 counterexample: buildTimeline with no tag sorts the stored article
array in place, so the stored array after the call differs from the array
before it. -/
theorem C9_no_tag_sort_mutates_cex :
    (buildTimelineRun [unsortedArticleA, unsortedArticleB] none).2 =
      [unsortedArticleB, unsortedArticleA] ∧
    [unsortedArticleB, unsortedArticleA] ≠ [unsortedArticleA, unsortedArticleB] := by
  refine ⟨?_, ?_⟩ <;> decide

/-- C9 amended: buildTimeline never changes the membership of the stored
array (the in-place sort is a permutation), and with a truthy tag argument it
leaves the stored array entirely unchanged. -/
theorem C9_buildTimeline_frame (arts : List Article) (otag : Option String) :
    ((buildTimelineRun arts otag).2).Perm arts ∧
    (∀ t, otag = some t → t ≠ "" → (buildTimelineRun arts otag).2 = arts) := by
  cases otag with
  | none =>
    refine ⟨?_, ?_⟩
    · simp only [buildTimelineRun]
      exact List.perm_insertionSort _ _
    · intro t h
      exact absurd h (by simp)
  | some t0 =>
    by_cases ht : t0 = ""
    · subst ht
      refine ⟨?_, ?_⟩
      · simp only [buildTimelineRun, bne_self_eq_false, Bool.false_eq_true, if_false]
        exact List.perm_insertionSort _ _
      · intro t h hne
        rw [Option.some_inj] at h
        exact absurd h.symm hne
    · have htb : (t0 != "") = true := by simpa using ht
      refine ⟨?_, ?_⟩
      · simp only [buildTimelineRun, htb, if_true]
        exact List.Perm.refl _
      · intro t h hne
        simp only [buildTimelineRun, htb, if_true]

/-- C9 witness: on the concrete two-article store, a truthy tag leaves the
stored array unchanged, and the no-tag call keeps exactly the same elements. -/
theorem C9_buildTimeline_frame_witness :
    (buildTimelineRun [unsortedArticleA, unsortedArticleB] (some "x")).2 =
      [unsortedArticleA, unsortedArticleB] ∧
    ((buildTimelineRun [unsortedArticleA, unsortedArticleB] none).2).Perm
      [unsortedArticleA, unsortedArticleB] :=
  ⟨(C9_buildTimeline_frame [unsortedArticleA, unsortedArticleB] (some "x")).2
      "x" rfl (by decide),
   (C9_buildTimeline_frame [unsortedArticleA, unsortedArticleB] none).1⟩

/-- C4 counterexample: a tag with exactly one article in history is NOT
classified new when that article lies in the recent window: the rising rule
fires first, because one recent article against zero older articles passes
recent greater than older times 1.5. -/
theorem C4_single_recent_is_rising_cex :
    (analyzeTrend trendNow [recentSingleArticle] "x").trend = "rising" ∧
    (buildTimeline [recentSingleArticle] (some "x")).length = 1 := by
  constructor
  · have h : buildTimeline [recentSingleArticle] (some "x") =
        [toTimelineEntry recentSingleArticle] := by decide
    simp only [analyzeTrend, h]
    norm_num [toTimelineEntry, recentSingleArticle, trendNow,
      List.filter_cons, List.filter_nil]
  · decide

/-- C4 amended: for a tag whose timeline contains exactly one article, the
classification is new exactly when that article is older than 60 days,
rising exactly when it lies in the recent 30-day window, and declining
exactly when it lies in the 30-to-60-day window. -/
theorem C4_single_article_classification (now : Int) (arts : List Article)
    (tag : String) (e : TimelineEntry)
    (h : buildTimeline arts (some tag) = [e]) :
    ((analyzeTrend now arts tag).trend = "new" ↔
      e.date ≤ now - 60 * 24 * 60 * 60 * 1000) ∧
    ((analyzeTrend now arts tag).trend = "rising" ↔
      now - 30 * 24 * 60 * 60 * 1000 < e.date) ∧
    ((analyzeTrend now arts tag).trend = "declining" ↔
      (now - 60 * 24 * 60 * 60 * 1000 < e.date ∧
        e.date ≤ now - 30 * 24 * 60 * 60 * 1000)) := by
  by_cases hT : now - 2592000000 < e.date
  · have ht : (analyzeTrend now arts tag).trend = "rising" := by
      have hle : ¬ (e.date ≤ now - 2592000000) := not_le.mpr hT
      simp only [analyzeTrend, h]
      norm_num [List.filter_cons, List.filter_nil, hT, hle]
    rw [ht]
    refine ⟨⟨fun hc => absurd hc (by decide), fun hd => absurd hd (by omega)⟩,
      ⟨fun _ => by omega, fun _ => rfl⟩,
      ⟨fun hc => absurd hc (by decide), fun hd => absurd hd.2 (by omega)⟩⟩
  · by_cases hS : now - 5184000000 < e.date
    · have ht : (analyzeTrend now arts tag).trend = "declining" := by
        have hle : e.date ≤ now - 2592000000 := not_lt.mp hT
        simp only [analyzeTrend, h]
        norm_num [List.filter_cons, List.filter_nil, hT, hS, hle]
      rw [ht]
      refine ⟨⟨fun hc => absurd hc (by decide), fun hd => absurd hd (by omega)⟩,
        ⟨fun hc => absurd hc (by decide), fun hd => absurd hd (by omega)⟩,
        ⟨fun _ => by omega, fun _ => rfl⟩⟩
    · have ht : (analyzeTrend now arts tag).trend = "new" := by
        have hle : e.date ≤ now - 2592000000 := not_lt.mp hT
        have hle2 : e.date ≤ now - 5184000000 := not_lt.mp hS
        simp only [analyzeTrend, h]
        norm_num [List.filter_cons, List.filter_nil, hT, hS, hle, hle2]
      rw [ht]
      refine ⟨⟨fun _ => by omega, fun _ => rfl⟩,
        ⟨fun hc => absurd hc (by decide), fun hd => absurd hd (by omega)⟩,
        ⟨fun hc => absurd hc (by decide), fun hd => absurd hd.1 (by omega)⟩⟩

/-- C4 witness: a single article older than 60 days is classified new. -/
theorem C4_single_article_witness :
    (analyzeTrend trendNow2 [ancientArticle] "z").trend = "new" :=
  (C4_single_article_classification trendNow2 [ancientArticle] "z"
    (toTimelineEntry ancientArticle) (by decide)).1.mpr (by decide)

/-! C6: symmetry of calculateRelation. -/

theorem perm_insertionDedup_append {α : Type} [DecidableEq α] (l1 l2 : List α) :
    (insertionDedup (l1 ++ l2)).Perm (insertionDedup (l2 ++ l1)) := by
  refine (List.perm_ext_iff_of_nodup nodup_insertionDedup nodup_insertionDedup).2 ?_
  intro x
  simp only [mem_insertionDedup, List.mem_append]
  exact or_comm

theorem jaccardSimilarity_comm (s1 s2 : Finset String) :
    jaccardSimilarity s1 s2 = jaccardSimilarity s2 s1 := by
  simp only [jaccardSimilarity, Finset.union_comm s1 s2, Finset.inter_comm s1 s2]

theorem cosineSimilarityQ_comm (jsSqrt : ℚ → ℚ) (v1 v2 : List (String × ℚ)) :
    cosineSimilarityQ jsSqrt v1 v2 = cosineSimilarityQ jsSqrt v2 v1 := by
  simp only [cosineSimilarityQ]
  have hperm := perm_insertionDedup_append (v1.map Prod.fst) (v2.map Prod.fst)
  have hsum : ∀ g : String → ℚ,
      ((insertionDedup (v1.map Prod.fst ++ v2.map Prod.fst)).map g).sum =
        ((insertionDedup (v2.map Prod.fst ++ v1.map Prod.fst)).map g).sum :=
    fun g => (hperm.map g).sum_eq
  rw [hsum (fun k => (List.lookup k v1).getD 0 * (List.lookup k v2).getD 0),
    hsum (fun k => (List.lookup k v1).getD 0 * (List.lookup k v1).getD 0),
    hsum (fun k => (List.lookup k v2).getD 0 * (List.lookup k v2).getD 0),
    show (fun k => (List.lookup k v1).getD 0 * (List.lookup k v2).getD 0)
        = (fun k => (List.lookup k v2).getD 0 * (List.lookup k v1).getD 0) from
      funext fun k => mul_comm _ _]
  exact if_congr or_comm rfl (by rw [mul_comm])

theorem relSharedTags_perm (a1 a2 : Article) :
    (relSharedTags a1 a2).Perm (relSharedTags a2 a1) := by
  refine (List.perm_ext_iff_of_nodup
    (nodup_insertionDedup.filter _) (nodup_insertionDedup.filter _)).2 ?_
  intro x
  simp only [relSharedTags, List.mem_filter, mem_insertionDedup, List.elem_iff]
  exact and_comm

theorem relTagOverlap_comm (a1 a2 : Article) :
    relTagOverlap a1 a2 = relTagOverlap a2 a1 := by
  unfold relTagOverlap
  rw [(relSharedTags_perm a1 a2).length_eq, max_left_comm]

theorem relTopicSimilarity_comm (jsSqrt : ℚ → ℚ) (a1 a2 : Article) :
    relTopicSimilarity jsSqrt a1 a2 = relTopicSimilarity jsSqrt a2 a1 :=
  cosineSimilarityQ_comm jsSqrt _ _

theorem relKeyPointSimilarity_comm (a1 a2 : Article) :
    relKeyPointSimilarity a1 a2 = relKeyPointSimilarity a2 a1 := by
  unfold relKeyPointSimilarity
  exact if_congr and_comm (jaccardSimilarity_comm _ _) rfl

theorem relTotalScore_comm (jsSqrt : ℚ → ℚ) (a1 a2 : Article) :
    relTotalScore jsSqrt a1 a2 = relTotalScore jsSqrt a2 a1 := by
  unfold relTotalScore
  rw [relKeyPointSimilarity_comm, relTagOverlap_comm, relTopicSimilarity_comm]

/-- C6 amended: calculateRelation is symmetric in totalScore, tagOverlap,
topicSimilarity and keyPointSimilarity, and the sharedTags arrays of the two
argument orders are permutations of each other (the same set of tags,
possibly in different order). -/
theorem C6_relation_symmetry (jsSqrt : ℚ → ℚ) (a1 a2 : Article) :
    (calculateRelation jsSqrt a1 a2).totalScore =
      (calculateRelation jsSqrt a2 a1).totalScore ∧
    (calculateRelation jsSqrt a1 a2).tagOverlap =
      (calculateRelation jsSqrt a2 a1).tagOverlap ∧
    (calculateRelation jsSqrt a1 a2).topicSimilarity =
      (calculateRelation jsSqrt a2 a1).topicSimilarity ∧
    (calculateRelation jsSqrt a1 a2).keyPointSimilarity =
      (calculateRelation jsSqrt a2 a1).keyPointSimilarity ∧
    ((calculateRelation jsSqrt a1 a2).sharedTags).Perm
      ((calculateRelation jsSqrt a2 a1).sharedTags) := by
  simp only [calculateRelation]
  exact ⟨relTotalScore_comm jsSqrt a1 a2, relTagOverlap_comm a1 a2,
    relTopicSimilarity_comm jsSqrt a1 a2, relKeyPointSimilarity_comm a1 a2,
    relSharedTags_perm a1 a2⟩

/-! C5: the relevance gate of searchWithContext. -/

theorem sortByDescQ_pairwise {α : Type} (f : α → ℚ) (l : List α) :
    (sortByDescQ f l).Pairwise (fun a b => f b ≤ f a) := by
  haveI h1 : IsTotal α (fun a b => f b ≤ f a) := ⟨fun a b => le_total (f b) (f a)⟩
  haveI h2 : IsTrans α (fun a b => f b ≤ f a) := ⟨fun a b c hab hbc => le_trans hbc hab⟩
  exact @List.sorted_insertionSort α (fun a b => f b ≤ f a)
    (fun a b => inferInstanceAs (Decidable (f b ≤ f a))) h1 h2 l

theorem enhance_score (st : SemState) (q : String) (inc : Bool) (r : SearchHit) :
    (enhance st q inc r).score = r.score := by
  cases h : st.articles.lookup r.id <;> simp [enhance, h]

theorem head_max_all (l : List ContextEntry)
    (h : l.Pairwise (fun a b => b.relevance ≤ a.relevance)) :
    l.all (fun x => decide (x.relevance ≤
      ((l.head?.map (fun r => r.relevance)).getD 0))) = true := by
  cases l with
  | nil => rfl
  | cons r rest =>
    rw [List.all_eq_true]
    intro x hx
    rw [decide_eq_true_eq]
    show x.relevance ≤ r.relevance
    rcases List.mem_cons.mp hx with h1 | h1
    · exact h1 ▸ le_refl _
    · exact (List.pairwise_cons.mp h).1 x h1

/-- C5: for every fitted search state and every query, the returned
hasRelevantInfo flag is true exactly when the result list is nonempty and
its first entry scores strictly above 0.15 (so a top score of exactly 0.15
gives false), and the first entry is a highest-scoring one: every result
relevance is bounded by the relevance of the first entry. -/
theorem C5_relevance_gate (jsLog jsSqrt : ℚ → ℚ) (st : SemState) (q : String)
    (k : ℕ) (out : ContextResult)
    (hf : st.vec.fitted = true)
    (h : searchWithContext jsLog jsSqrt st q k = .ok out) :
    out.hasRelevantInfo =
      ((out.results.head?.map (fun r => decide ((3/20 : ℚ) < r.relevance))).getD false) ∧
    out.results.all (fun x => decide (x.relevance ≤
      ((out.results.head?.map (fun r => r.relevance)).getD 0))) = true := by
  simp only [searchWithContext, semSearch, vecSearch, hf, if_true, Except.map] at h
  rw [Except.ok.injEq] at h
  subst h
  have hhits : (searchFitted jsSqrt st.vec.idf st.vec.vectors q k).Pairwise
      (fun a b => b.score ≤ a.score) := by
    simp only [searchFitted]
    exact (sortByDescQ_pairwise _ _).sublist (List.take_sublist _ _)
  have hfil : ((searchFitted jsSqrt st.vec.idf st.vec.vectors q k).filter
      (fun h2 => decide ((1/10 : ℚ) ≤ h2.score))).Pairwise
      (fun a b => b.score ≤ a.score) :=
    hhits.sublist (List.filter_sublist _)
  have hmap : (((searchFitted jsSqrt st.vec.idf st.vec.vectors q k).filter
      (fun h2 => decide ((1/10 : ℚ) ≤ h2.score))).map (enhance st q true)).Pairwise
      (fun a b => b.score ≤ a.score) := by
    rw [List.pairwise_map]
    refine hfil.imp ?_
    intro a b hab
    rw [enhance_score, enhance_score]
    exact hab
  constructor
  · cases ((searchFitted jsSqrt st.vec.idf st.vec.vectors q k).filter
      (fun h2 => decide ((1/10 : ℚ) ≤ h2.score))).map (enhance st q true) with
    | nil => rfl
    | cons r rest => rfl
  · refine head_max_all _ ?_
    rw [List.pairwise_map]
    refine hmap.imp ?_
    intro a b hab
    exact hab

/-- C5 witness: on the concrete fitted state the gate theorem applies with
both hypotheses discharged by computation, and its conclusion holds of the
returned empty result list with hasRelevantInfo false. -/
theorem C5_relevance_gate_witness :
    (ContextResult.mk "rwa" [] false).hasRelevantInfo =
      (((ContextResult.mk "rwa" [] false).results.head?.map
        (fun r => decide ((3/20 : ℚ) < r.relevance))).getD false) ∧
    (ContextResult.mk "rwa" [] false).results.all (fun x => decide (x.relevance ≤
      (((ContextResult.mk "rwa" [] false).results.head?.map
        (fun r => r.relevance)).getD 0))) = true :=
  C5_relevance_gate qOne qOne demoSemFitted "rwa" 3 (ContextResult.mk "rwa" [] false)
    rfl rfl

/-! C10: findSimilar on a missing article id, and exclusion of the source
article from its own similarity results. -/

/-- C10: findSimilar never fails on an unknown article id (it returns the
empty ok result before any search), and whenever it returns a result list,
no entry carries the queried article id itself. -/
theorem C10_findSimilar_safe (jsLog jsSqrt : ℚ → ℚ) (st : SemState)
    (articleId : String) (topK : ℕ) :
    (st.articles.lookup articleId = none →
      findSimilar jsLog jsSqrt st articleId topK = .ok []) ∧
    (∀ res, findSimilar jsLog jsSqrt st articleId topK = .ok res →
      res.all (fun r => r.id != articleId) = true) := by
  constructor
  · intro h
    simp [findSimilar, h]
  · intro res hres
    rw [List.all_eq_true]
    intro r hr
    rw [bne_iff_ne]
    unfold findSimilar at hres
    cases hlook : st.articles.lookup articleId with
    | none =>
      rw [hlook] at hres
      simp only [Except.ok.injEq] at hres
      subst hres
      cases hr
    | some a =>
      rw [hlook] at hres
      dsimp only at hres
      cases hsearch : semSearch jsLog jsSqrt st
          (String.intercalate " " ([a.title, a.summary] ++ a.keyPoints)) (topK + 1)
          (1/10) true with
      | error e =>
        rw [hsearch] at hres
        simp [Except.map] at hres
      | ok rs =>
        rw [hsearch] at hres
        simp only [Except.map, Except.ok.injEq] at hres
        subst hres
        have hr2 := List.mem_of_mem_take hr
        have hr3 := List.mem_filter.mp hr2
        simpa using hr3.2

/-- C10 witness: on the concrete store, an unknown id returns the empty ok
list through the first clause, and the result list returned for the present
id a (computed by rfl) contains no entry with id a by the second clause. -/
theorem C10_findSimilar_safe_witness :
    findSimilar qOne qOne demoSemOneArticle "zzz" 5 = .ok [] ∧
    ([] : List EnhResult).all (fun r => r.id != "a") = true :=
  ⟨(C10_findSimilar_safe qOne qOne demoSemOneArticle "zzz" 5).1 rfl,
   (C10_findSimilar_safe qOne qOne demoSemOneArticle "a" 5).2 [] rfl⟩

theorem objSet_of_not_mem_keys {β : Type} {l : List (String × β)} {k : String}
    (v : β) (h : k ∉ l.map Prod.fst) : objSet l k v = l ++ [(k, v)] := by
  induction l with
  | nil => rfl
  | cons p t ih =>
    have hk : p.1 ≠ k := by
      intro he
      exact h (by simp [he])
    calc objSet (p :: t) k v = p :: objSet t k v := by
          rw [show (p :: t) = ((p.1, p.2) :: t) from rfl, objSet, if_neg hk]
      _ = p :: (t ++ [(k, v)]) := by rw [ih (fun hm => h (by simp [hm]))]
      _ = (p :: t) ++ [(k, v)] := rfl

theorem objSet_keys_of_mem {β : Type} {l : List (String × β)} {k : String}
    (v : β) (h : k ∈ l.map Prod.fst) :
    (objSet l k v).map Prod.fst = l.map Prod.fst := by
  induction l with
  | nil => cases h
  | cons p t ih =>
    by_cases hk : p.1 = k
    · rw [show (p :: t) = ((p.1, p.2) :: t) from rfl, objSet, if_pos hk]
      simp [hk]
    · have hmem : k ∈ t.map Prod.fst := by
        rcases List.mem_cons.mp h with h1 | h1
        · exact absurd h1.symm hk
        · exact h1
      rw [show (p :: t) = ((p.1, p.2) :: t) from rfl, objSet, if_neg hk]
      simp [ih hmem]

theorem objSet_nodupKeys {β : Type} {l : List (String × β)} (k : String) (v : β)
    (h : NodupKeys l) : NodupKeys (objSet l k v) := by
  by_cases hm : k ∈ l.map Prod.fst
  · unfold NodupKeys
    rw [objSet_keys_of_mem v hm]
    exact h
  · unfold NodupKeys
    rw [objSet_of_not_mem_keys v hm]
    simp only [List.map_append]
    rw [List.nodup_append]
    exact ⟨h, by simp, by simpa using fun hx => hm hx⟩

theorem objSet_lookup_self {β : Type} {l : List (String × β)} {k : String} {v : β}
    (h : l.lookup k = some v) : objSet l k v = l := by
  induction l with
  | nil => cases h
  | cons p t ih =>
    by_cases hk : p.1 = k
    · rw [show (p :: t) = ((p.1, p.2) :: t) from rfl, objSet, if_pos hk]
      have : p.2 = v := by
        rw [List.lookup, show (k == p.1) = true from by simp [hk.symm]] at h
        simpa using h
      simp [hk, this]
    · rw [show (p :: t) = ((p.1, p.2) :: t) from rfl, objSet, if_neg hk]
      have ht : t.lookup k = some v := by
        rw [List.lookup, show (k == p.1) = false from by simp [Ne.symm hk]] at h
        exact h
      rw [ih ht]

theorem objSet_append_left {β : Type} {l1 : List (String × β)} (l2 : List (String × β))
    {k : String} (v : β) (h : k ∉ l1.map Prod.fst) :
    objSet (l1 ++ l2) k v = l1 ++ objSet l2 k v := by
  induction l1 with
  | nil => rfl
  | cons p t ih =>
    have hk : p.1 ≠ k := fun he => h (by simp [he])
    rw [List.cons_append, show (p :: (t ++ l2)) = ((p.1, p.2) :: (t ++ l2)) from rfl,
      objSet, if_neg hk, ih (fun hm => h (by simp [hm]))]
    rfl

theorem lookup_map_value {β : Type} (g : String × ℕ → β) :
    ∀ (df : List (String × ℕ)) (p : String × ℕ), NodupKeys df → p ∈ df →
      (df.map (fun q => (q.1, g q))).lookup p.1 = some (g p)
  | [], p, _, hp => by cases hp
  | q :: t, p, hnd, hp => by
    rcases List.mem_cons.mp hp with h1 | h1
    · subst h1
      simp [List.lookup]
    · have hne : p.1 ≠ q.1 := by
        intro he
        have : q.1 ∉ t.map Prod.fst := (List.nodup_cons.mp hnd).1
        exact this (he ▸ List.mem_map_of_mem Prod.fst h1)
      have : ((p.1 == q.1) : Bool) = false := by simp [hne]
      simp only [List.map_cons, List.lookup, this]
      exact lookup_map_value g t p (List.nodup_cons.mp hnd).2 h1

/-- foldIdfGen describes one generic pass of writes obj[p.1] = g p over the
entries of df, the shape of the idf loop of calculateIDF. -/
theorem foldl_objSet_fun_fresh {β : Type} (g : String × ℕ → β) :
    ∀ (df : List (String × ℕ)) (acc : List (String × β)), NodupKeys df →
      (∀ p ∈ df, p.1 ∉ acc.map Prod.fst) →
      df.foldl (fun a p => objSet a p.1 (g p)) acc = acc ++ df.map (fun p => (p.1, g p))
  | [], acc, _, _ => by simp
  | p :: t, acc, hnd, hfresh => by
    rw [List.foldl_cons, objSet_of_not_mem_keys (g p) (hfresh p (List.mem_cons_self _ _))]
    rw [foldl_objSet_fun_fresh g t (acc ++ [(p.1, g p)]) (List.nodup_cons.mp hnd).2 ?_]
    · simp
    · intro q hq
      simp only [List.map_append, List.mem_append]
      rintro (h1 | h1)
      · exact hfresh q (List.mem_cons_of_mem _ hq) h1
      · have : q.1 = p.1 := by simpa using h1
        exact (List.nodup_cons.mp hnd).1 (this ▸ List.mem_map_of_mem Prod.fst hq)

theorem foldl_objSet_fun_noop {β : Type} (g : String × ℕ → β) :
    ∀ (df : List (String × ℕ)) (acc : List (String × β)),
      (∀ p ∈ df, acc.lookup p.1 = some (g p)) →
      df.foldl (fun a p => objSet a p.1 (g p)) acc = acc
  | [], _, _ => rfl
  | p :: t, acc, h => by
    rw [List.foldl_cons, objSet_lookup_self (h p (List.mem_cons_self _ _))]
    exact foldl_objSet_fun_noop g t acc (fun q hq => h q (List.mem_cons_of_mem _ hq))

/-- foldl_pair_split: a fold whose step updates the two components of a pair
independently is the pair of the two component folds. -/
theorem foldl_pair_split {α β γ : Type} (f : α → γ → α) (g : β → γ → β) :
    ∀ (l : List γ) (a : α) (b : β),
      l.foldl (fun acc p => (f acc.1 p, g acc.2 p)) (a, b) = (l.foldl f a, l.foldl g b)
  | [], _, _ => rfl
  | p :: t, a, b => by
    rw [List.foldl_cons, List.foldl_cons, List.foldl_cons]
    exact foldl_pair_split f g t (f a p) (g b p)

/-- applyIDF carries the two independent dictionaries through one loop, so it
equals the pair of the two standalone folds. -/
theorem applyIDF_split (jsLog : ℚ → ℚ) (numDocs : ℕ)
    (df : List (String × ℕ)) (idf0 : List (String × ℚ)) (voc0 : List (String × ℕ)) :
    applyIDF jsLog numDocs df idf0 voc0 =
      (foldIdf jsLog numDocs df idf0, foldVoc df voc0) := by
  unfold applyIDF foldIdf foldVoc
  exact foldl_pair_split
    (fun i p => objSet i p.1 (jsLog (((numDocs : ℚ) + 1) / ((p.2 : ℚ) + 1)) + 1))
    (fun v p => objSet v p.1 v.length) df idf0 voc0

theorem foldVoc_keys :
    ∀ (df : List (String × ℕ)) (acc : List (String × ℕ)), NodupKeys df →
      (∀ p ∈ df, p.1 ∉ acc.map Prod.fst) →
      (foldVoc df acc).map Prod.fst = acc.map Prod.fst ++ df.map Prod.fst
  | [], acc, _, _ => by simp [foldVoc]
  | p :: t, acc, hnd, hfresh => by
    have hside : ∀ q ∈ t, q.1 ∉ (acc ++ [(p.1, acc.length)]).map Prod.fst := by
      intro q hq
      simp only [List.map_append, List.mem_append]
      rintro (h1 | h1)
      · exact hfresh q (List.mem_cons_of_mem _ hq) h1
      · have : q.1 = p.1 := by simpa using h1
        exact (List.nodup_cons.mp hnd).1 (this ▸ List.mem_map_of_mem Prod.fst hq)
    rw [foldVoc, List.foldl_cons,
      objSet_of_not_mem_keys acc.length (hfresh p (List.mem_cons_self _ _))]
    rw [show List.foldl (fun acc p => objSet acc p.1 acc.length) (acc ++ [(p.1, acc.length)]) t
        = foldVoc t (acc ++ [(p.1, acc.length)]) from rfl]
    rw [foldVoc_keys t (acc ++ [(p.1, acc.length)]) (List.nodup_cons.mp hnd).2 hside]
    simp

theorem foldVoc_fresh_prefix :
    ∀ (df : List (String × ℕ)) (acc : List (String × ℕ)), NodupKeys df →
      (∀ p ∈ df, p.1 ∉ acc.map Prod.fst) →
      ∃ tail, foldVoc df acc = acc ++ tail
  | [], acc, _, _ => ⟨[], by simp [foldVoc]⟩
  | p :: t, acc, hnd, hfresh => by
    have hside : ∀ q ∈ t, q.1 ∉ (acc ++ [(p.1, acc.length)]).map Prod.fst := by
      intro q hq
      simp only [List.map_append, List.mem_append]
      rintro (h1 | h1)
      · exact hfresh q (List.mem_cons_of_mem _ hq) h1
      · have : q.1 = p.1 := by simpa using h1
        exact (List.nodup_cons.mp hnd).1 (this ▸ List.mem_map_of_mem Prod.fst hq)
    rw [foldVoc, List.foldl_cons,
      objSet_of_not_mem_keys acc.length (hfresh p (List.mem_cons_self _ _))]
    obtain ⟨tail, htail⟩ := foldVoc_fresh_prefix t (acc ++ [(p.1, acc.length)])
      (List.nodup_cons.mp hnd).2 hside
    exact ⟨[(p.1, acc.length)] ++ tail, by
      rw [show List.foldl (fun acc p => objSet acc p.1 acc.length)
          (acc ++ [(p.1, acc.length)]) t = foldVoc t (acc ++ [(p.1, acc.length)]) from rfl,
        htail, List.append_assoc]⟩

theorem foldVoc_overwrite :
    ∀ (df pre rest : List (String × ℕ)),
      rest.map Prod.fst = df.map Prod.fst →
      NodupKeys (pre ++ rest) →
      foldVoc df (pre ++ rest) = pre ++ rest.map (fun q => (q.1, (pre ++ rest).length))
  | [], pre, rest, hkeys, _ => by
    have : rest = [] := by simpa using congrArg List.length hkeys
    subst this
    simp [foldVoc]
  | p :: t, pre, rest, hkeys, hnd => by
    cases rest with
    | nil => simp at hkeys
    | cons r rest2 =>
      simp only [List.map_cons, List.cons.injEq] at hkeys
      obtain ⟨hr1, hrest⟩ := hkeys
      have hpre : p.1 ∉ pre.map Prod.fst := by
        have hnd2 := hnd
        unfold NodupKeys at hnd2
        rw [List.map_append, List.nodup_append] at hnd2
        intro hmem
        exact hnd2.2.2 hmem (by simp [hr1])
      rw [foldVoc, List.foldl_cons, objSet_append_left _ _ hpre]
      rw [show objSet (r :: rest2) p.1 (pre ++ r :: rest2).length
          = (p.1, (pre ++ r :: rest2).length) :: rest2 from by
        rw [show (r :: rest2) = ((r.1, r.2) :: rest2) from rfl, objSet, if_pos hr1]]
      have hre : pre ++ (p.1, (pre ++ r :: rest2).length) :: rest2
          = (pre ++ [(p.1, (pre ++ r :: rest2).length)]) ++ rest2 := by simp
      rw [show List.foldl (fun acc p => objSet acc p.1 acc.length)
          (pre ++ (p.1, (pre ++ r :: rest2).length) :: rest2) t
          = foldVoc t (pre ++ (p.1, (pre ++ r :: rest2).length) :: rest2) from rfl, hre]
      have hkeys2 : ((pre ++ [(p.1, (pre ++ r :: rest2).length)]) ++ rest2).map Prod.fst
          = (pre ++ r :: rest2).map Prod.fst := by simp [hr1]
      have hnd2 : NodupKeys ((pre ++ [(p.1, (pre ++ r :: rest2).length)]) ++ rest2) := by
        unfold NodupKeys
        rw [hkeys2]
        exact hnd
      rw [foldVoc_overwrite t (pre ++ [(p.1, (pre ++ r :: rest2).length)]) rest2 hrest hnd2]
      have hlen : ((pre ++ [(p.1, (pre ++ r :: rest2).length)]) ++ rest2).length
          = (pre ++ r :: rest2).length := by simp
      rw [hlen]
      simp [hr1]

theorem nodupKeys_foldl_incr :
    ∀ (toks : List String) (acc : List (String × ℕ)), NodupKeys acc →
      NodupKeys (toks.foldl (fun a t => objSet a t ((a.lookup t).getD 0 + 1)) acc)
  | [], _, h => h
  | _ :: toks, _, h => nodupKeys_foldl_incr toks _ (objSet_nodupKeys _ _ h)

theorem nodupKeys_calcDocFreq (docs : List VDoc) : NodupKeys (calcDocFreq docs) := by
  suffices h : ∀ (ds : List VDoc) (acc : List (String × ℕ)), NodupKeys acc →
      NodupKeys (ds.foldl (fun acc d => (insertionDedup d.tokens).foldl
        (fun acc2 t => objSet acc2 t ((acc2.lookup t).getD 0 + 1)) acc) acc) by
    exact h docs [] (by simp [NodupKeys])
  intro ds
  induction ds with
  | nil => exact fun acc h => h
  | cons d ds ih => exact fun acc h => ih _ (nodupKeys_foldl_incr _ _ h)

theorem foldVoc_head_zero (df : List (String × ℕ)) (hnd : NodupKeys df)
    (hne : df ≠ []) : ∃ k tail, foldVoc df [] = (k, 0) :: tail := by
  cases df with
  | nil => exact absurd rfl hne
  | cons p t =>
    have hside : ∀ q ∈ t, q.1 ∉ ([(p.1, 0)] : List (String × ℕ)).map Prod.fst := by
      intro q hq hmem
      have : q.1 = p.1 := by simpa using hmem
      exact (List.nodup_cons.mp hnd).1 (this ▸ List.mem_map_of_mem Prod.fst hq)
    obtain ⟨tail, htail⟩ := foldVoc_fresh_prefix t [(p.1, 0)]
      (List.nodup_cons.mp hnd).2 hside
    refine ⟨p.1, tail, ?_⟩
    rw [foldVoc, List.foldl_cons]
    rw [show objSet ([] : List (String × ℕ)) p.1 ([] : List (String × ℕ)).length
        = [(p.1, 0)] from rfl]
    rw [show List.foldl (fun acc p => objSet acc p.1 acc.length) [(p.1, 0)] t
        = foldVoc t [(p.1, 0)] from rfl, htail]
    rfl

/-- fitOk_spec names the successor state of a successful fit: documents are
preserved, the idf and vocabulary come out of applyIDF seeded with the
current dictionaries, the vectors are rebuilt, and the fitted flag is set. -/
theorem fitOk_spec (jsLog : ℚ → ℚ) (st : VecState) (hd : st.documents ≠ []) :
    fitOk jsLog st =
      { documents := st.documents,
        vocabulary := (applyIDF jsLog st.documents.length (calcDocFreq st.documents)
          st.idf st.vocabulary).2,
        idf := (applyIDF jsLog st.documents.length (calcDocFreq st.documents)
          st.idf st.vocabulary).1,
        vectors := st.documents.map (fun d =>
          VecEntry.mk d.id
            (vectorize (applyIDF jsLog st.documents.length (calcDocFreq st.documents)
              st.idf st.vocabulary).1 d.termFreq)
            d.metadata),
        fitted := true } := by
  have hlen : ¬ st.documents.length = 0 := by simpa [List.length_eq_zero] using hd
  simp only [fitOk, fit, if_neg hlen, calculateIDF]

/-- C1 amended: re-fitting an unchanged (initially fresh) corpus leaves the
IDF table, the vectors, and every search result unchanged, but rewrites
every vocabulary index to the constant vocabulary size, so the term-to-index
mapping changes whenever the vocabulary is nonempty. -/
theorem C1_refit_idf_and_search_stable (jsLog jsSqrt : ℚ → ℚ) (st : VecState)
    (hd : st.documents ≠ []) (hv : st.vocabulary = []) (hi : st.idf = []) :
    (fitOk jsLog (fitOk jsLog st)).idf = (fitOk jsLog st).idf ∧
    (fitOk jsLog (fitOk jsLog st)).vectors = (fitOk jsLog st).vectors ∧
    (∀ q k, vecSearch jsLog jsSqrt (fitOk jsLog (fitOk jsLog st)) q k =
      vecSearch jsLog jsSqrt (fitOk jsLog st) q k) ∧
    (fitOk jsLog (fitOk jsLog st)).vocabulary =
      (fitOk jsLog st).vocabulary.map
        (fun p => (p.1, (fitOk jsLog st).vocabulary.length)) ∧
    ((fitOk jsLog st).vocabulary ≠ [] →
      (fitOk jsLog (fitOk jsLog st)).vocabulary ≠ (fitOk jsLog st).vocabulary) := by
  have h1 := fitOk_spec jsLog st hd
  have hdocs1 : (fitOk jsLog st).documents = st.documents := by rw [h1]
  have hd1 : (fitOk jsLog st).documents ≠ [] := by rw [hdocs1]; exact hd
  have h2 := fitOk_spec jsLog (fitOk jsLog st) hd1
  rw [hdocs1] at h2
  have hdf : NodupKeys (calcDocFreq st.documents) := nodupKeys_calcDocFreq _
  have hidf1 : (fitOk jsLog st).idf = (calcDocFreq st.documents).map
      (fun p => (p.1, jsLog (((st.documents.length : ℚ) + 1) / ((p.2 : ℚ) + 1)) + 1)) := by
    rw [h1]
    simp only [applyIDF_split, hv, hi]
    have hfr := foldl_objSet_fun_fresh
      (fun p : String × ℕ => jsLog (((st.documents.length : ℚ) + 1) / ((p.2 : ℚ) + 1)) + 1)
      (calcDocFreq st.documents) [] hdf (by simp)
    rw [List.nil_append] at hfr
    exact hfr
  have hvoc1 : (fitOk jsLog st).vocabulary = foldVoc (calcDocFreq st.documents) [] := by
    rw [h1]
    simp only [applyIDF_split, hv, hi]
  have hvoc1keys : (fitOk jsLog st).vocabulary.map Prod.fst
      = (calcDocFreq st.documents).map Prod.fst := by
    rw [hvoc1]
    have := foldVoc_keys (calcDocFreq st.documents) [] hdf (by simp)
    simpa using this
  have hidf2 : (fitOk jsLog (fitOk jsLog st)).idf = (fitOk jsLog st).idf := by
    rw [h2]
    simp only [applyIDF_split]
    rw [hidf1]
    exact foldl_objSet_fun_noop
      (fun p : String × ℕ => jsLog (((st.documents.length : ℚ) + 1) / ((p.2 : ℚ) + 1)) + 1)
      (calcDocFreq st.documents) _
      (fun p hp => lookup_map_value _ (calcDocFreq st.documents) p hdf hp)
  have hexpr : (applyIDF jsLog st.documents.length (calcDocFreq st.documents)
        (fitOk jsLog st).idf (fitOk jsLog st).vocabulary).1
      = (applyIDF jsLog st.documents.length (calcDocFreq st.documents)
        st.idf st.vocabulary).1 := by
    have e2 : (fitOk jsLog (fitOk jsLog st)).idf
        = (applyIDF jsLog st.documents.length (calcDocFreq st.documents)
          (fitOk jsLog st).idf (fitOk jsLog st).vocabulary).1 := by rw [h2]
    have e1 : (fitOk jsLog st).idf
        = (applyIDF jsLog st.documents.length (calcDocFreq st.documents)
          st.idf st.vocabulary).1 := by rw [h1]
    rw [← e2, ← e1]
    exact hidf2
  have hvecs : (fitOk jsLog (fitOk jsLog st)).vectors = (fitOk jsLog st).vectors := by
    have e2 : (fitOk jsLog (fitOk jsLog st)).vectors = st.documents.map (fun d =>
        VecEntry.mk d.id
          (vectorize (applyIDF jsLog st.documents.length (calcDocFreq st.documents)
            (fitOk jsLog st).idf (fitOk jsLog st).vocabulary).1 d.termFreq)
          d.metadata) := by rw [h2]
    have e1 : (fitOk jsLog st).vectors = st.documents.map (fun d =>
        VecEntry.mk d.id
          (vectorize (applyIDF jsLog st.documents.length (calcDocFreq st.documents)
            st.idf st.vocabulary).1 d.termFreq)
          d.metadata) := by rw [h1]
    rw [e2, e1, hexpr]
  have hfit1 : (fitOk jsLog st).fitted = true := by rw [h1]
  have hfit2 : (fitOk jsLog (fitOk jsLog st)).fitted = true := by rw [h2]
  have hvoc2 : (fitOk jsLog (fitOk jsLog st)).vocabulary =
      (fitOk jsLog st).vocabulary.map
        (fun p => (p.1, (fitOk jsLog st).vocabulary.length)) := by
    rw [h2]
    simp only [applyIDF_split]
    have hnd2 : NodupKeys (([] : List (String × ℕ)) ++ (fitOk jsLog st).vocabulary) := by
      simp only [List.nil_append, NodupKeys, hvoc1keys]
      exact hdf
    have hov := foldVoc_overwrite (calcDocFreq st.documents) []
      ((fitOk jsLog st).vocabulary) (by simpa using hvoc1keys) hnd2
    simpa using hov
  refine ⟨hidf2, hvecs, ?_, hvoc2, ?_⟩
  · intro q k
    unfold vecSearch
    rw [hfit1, hfit2, hidf2, hvecs]
    simp
  · intro hne heqv
    have hdfne : calcDocFreq st.documents ≠ [] := by
      intro h0
      apply hne
      rw [hvoc1, h0]
      rfl
    obtain ⟨k0, tail, hhead⟩ := foldVoc_head_zero (calcDocFreq st.documents) hdf hdfne
    have hv1 : (fitOk jsLog st).vocabulary = (k0, 0) :: tail := hvoc1.trans hhead
    rw [hvoc2, hv1] at heqv
    simp at heqv

/-- C1 counterexample: after the first fit the vocabulary maps hello, world
and the bigram helloworld to the indices 0, 1, 2; fitting again on the
unchanged document set rewrites every index to the constant 3, so the second
fit does not yield the same term-to-index mapping. -/
theorem C1_refit_changes_vocabulary_cex :
    (fitOk qOne c1Vec).vocabulary = [("hello", 0), ("world", 1), ("helloworld", 2)] ∧
    (fitOk qOne (fitOk qOne c1Vec)).vocabulary =
      [("hello", 3), ("world", 3), ("helloworld", 3)] := by
  refine ⟨?_, ?_⟩ <;> decide

/-- C1 witness: the amended refit theorem applied to the concrete one-document
corpus, with all hypotheses discharged by computation. -/
theorem C1_refit_witness :
    (fitOk qOne (fitOk qOne c1Vec)).idf = (fitOk qOne c1Vec).idf ∧
    vecSearch qOne qOne (fitOk qOne (fitOk qOne c1Vec)) "hello" 5
      = vecSearch qOne qOne (fitOk qOne c1Vec) "hello" 5 ∧
    (fitOk qOne (fitOk qOne c1Vec)).vocabulary =
      (fitOk qOne c1Vec).vocabulary.map
        (fun p => (p.1, (fitOk qOne c1Vec).vocabulary.length)) ∧
    (fitOk qOne (fitOk qOne c1Vec)).vocabulary ≠ (fitOk qOne c1Vec).vocabulary := by
  have h := C1_refit_idf_and_search_stable qOne qOne c1Vec (by decide) rfl rfl
  exact ⟨h.1, h.2.2.1 "hello" 5, h.2.2.2.1, h.2.2.2.2 (by decide)⟩
